import Mathlib

/-!
Shallow embedding of the clang-tidy `cppcoreguidelines-macro-usage` check
(`clang-tools-extra/clang-tidy/cppcoreguidelines/MacroUsageCheck.cpp`).

The check observes macro-definition events from the preprocessor and emits
at most one usage-category diagnostic (constant-like / variadic /
function-like) or at most one naming diagnostic per definition, governed by
the `CheckCapsOnly` option.  We model the token stream, the macro info, the
definition event and the configuration, and translate the two functions
`MacroUsageCallbacks::MacroDefined` and `MacroUsageCheck::warnMacro`
(plus `warnNaming` and `isCapsOnly`) directly.
-/

namespace MacroUsage

/-- Kinds of preprocessor tokens the check distinguishes: the three literal
kinds (`Token::isLiteral`), the stringize and token-paste operators
(`tok::hash`, `tok::hashhash`), identifiers and anything else. -/
inductive TokenKind where
  | numericConstant
  | charConstant
  | stringLiteral
  | hash
  | hashhash
  | identifier
  | other
deriving DecidableEq, Repr

/-- `Token::isLiteral`: true exactly for the literal token kinds. -/
def TokenKind.isLiteral : TokenKind → Bool
  | .numericConstant => true
  | .charConstant => true
  | .stringLiteral => true
  | _ => false

/-- A preprocessor token as the check sees it: only its kind matters. -/
structure Token where
  kind : TokenKind
deriving DecidableEq, Repr

/-- The part of `clang::MacroInfo` the check reads: the replacement-token
list and the precomputed flags. -/
structure MacroInfo where
  tokens : List Token
  isVariadic : Bool
  isFunctionLike : Bool
  isUsedForHeaderGuard : Bool
deriving DecidableEq, Repr

/-- Classification of the macro definition's source location, as given by
`SourceManager::isWrittenInBuiltinFile` and
`SourceManager::isWrittenInCommandLineFile`. -/
inductive FileContext where
  | builtin
  | commandLine
  | ordinary
deriving DecidableEq, Repr

/-- One macro-definition event delivered to
`MacroUsageCallbacks::MacroDefined`: the macro name (from the name token's
identifier info), the macro info, and the location classification. -/
structure MacroDefinitionEvent where
  name : String
  info : MacroInfo
  context : FileContext
deriving DecidableEq, Repr

/-- The check's configuration: the `AllowedRegexp` option (modelled as its
match predicate on macro names, since regex matching is LLVM library code),
`CheckCapsOnly` and `IgnoreCommandLineMacros`. -/
structure AnalyzerConfig where
  regexMatch : String → Bool
  checkCapsOnly : Bool
  ignoreCommandLineMacros : Bool

/-- Diagnostic categories: the three usage-category messages emitted by
`warnMacro` and the naming message emitted by `warnNaming`. -/
inductive DiagKind where
  | constantLike
  | variadic
  | functionLike
  | naming
deriving DecidableEq, Repr

/-- A diagnostic as emitted through `diag(loc, message) << MacroName`:
location, message category and the macro name argument. -/
structure Diagnostic where
  context : FileContext
  kind : DiagKind
  name : String
deriving DecidableEq, Repr

/-- True for the usage-category diagnostics (emitted by `warnMacro`). -/
def Diagnostic.isUsage (d : Diagnostic) : Bool :=
  d.kind == .constantLike || d.kind == .variadic || d.kind == .functionLike

/-- True for the naming diagnostic (emitted by `warnNaming`). -/
def Diagnostic.isNaming (d : Diagnostic) : Bool :=
  d.kind == .naming

/-- `isCapsOnly` (MacroUsageCheck.cpp:21-25): every character of the name is
an uppercase ASCII letter, a digit, or an underscore (`llvm::all_of` over
the characters of the `StringRef`). -/
def isCapsOnly (name : String) : Bool :=
  name.data.all fun c => c.isUpper || c.isDigit || c == '_'

/-- `MacroUsageCheck::warnMacro` (MacroUsageCheck.cpp:82-101): choose the
usage-category message by precedence (all-literal body, then variadic, then
function-like) and emit it if one was chosen. -/
def warnMacro (ev : MacroDefinitionEvent) : List Diagnostic :=
  if ev.info.tokens.all (fun t => t.kind.isLiteral) then
    [⟨ev.context, .constantLike, ev.name⟩]
  else if ev.info.isVariadic then
    [⟨ev.context, .variadic, ev.name⟩]
  else if ev.info.isFunctionLike then
    [⟨ev.context, .functionLike, ev.name⟩]
  else
    []

/-- `MacroUsageCheck::warnNaming` (MacroUsageCheck.cpp:103-108). -/
def warnNaming (ev : MacroDefinitionEvent) : Diagnostic :=
  ⟨ev.context, .naming, ev.name⟩

/-- `MacroUsageCallbacks::MacroDefined` (MacroUsageCheck.cpp:36-58): the
observer's rejection rules followed by dispatch to the two checks; returns
the diagnostics emitted for this one definition, in emission order. -/
def macroDefined (cfg : AnalyzerConfig) (ev : MacroDefinitionEvent) :
    List Diagnostic :=
  if ev.context == .builtin || ev.info.isUsedForHeaderGuard
      || ev.info.tokens.isEmpty
      || ev.info.tokens.any
          (fun t => t.kind == TokenKind.hash || t.kind == TokenKind.hashhash) then
    []
  else if cfg.ignoreCommandLineMacros && ev.context == .commandLine then
    []
  else if ev.name == "__GCC_HAVE_DWARF2_CFI_ASM" then
    []
  else
    (if !cfg.checkCapsOnly && !cfg.regexMatch ev.name then warnMacro ev else [])
      ++ (if cfg.checkCapsOnly && !isCapsOnly ev.name then [warnNaming ev] else [])

/-- The observer's six rejection rules as one predicate: a definition is
rejected exactly when one of the early returns of `macroDefined` fires. -/
def rejected (cfg : AnalyzerConfig) (ev : MacroDefinitionEvent) : Bool :=
  ev.context == .builtin || ev.info.isUsedForHeaderGuard
    || ev.info.tokens.isEmpty
    || ev.info.tokens.any
        (fun t => t.kind == TokenKind.hash || t.kind == TokenKind.hashhash)
    || (cfg.ignoreCommandLineMacros && ev.context == .commandLine)
    || ev.name == "__GCC_HAVE_DWARF2_CFI_ASM"

/-- A run of the analyzer over a translation unit: the host invokes the
callback once per definition, in source order, and diagnostics accumulate
in the reporting sink (the explicit accumulator). -/
def processEvents (cfg : AnalyzerConfig) :
    List MacroDefinitionEvent → List Diagnostic → List Diagnostic
  | [], acc => acc
  | ev :: rest, acc => processEvents cfg rest (acc ++ macroDefined cfg ev)

/-- A fresh run: process all events starting from an empty sink. -/
def runAnalyzer (cfg : AnalyzerConfig) (evs : List MacroDefinitionEvent) :
    List Diagnostic :=
  processEvents cfg evs []

/-- `macroDefined` factors through the rejection predicate: it is empty on
rejected events and otherwise runs the two configuration-selected checks. -/
theorem macroDefined_eq_rejected (cfg : AnalyzerConfig)
    (ev : MacroDefinitionEvent) :
    macroDefined cfg ev =
      if rejected cfg ev then []
      else
        (if !cfg.checkCapsOnly && !cfg.regexMatch ev.name then warnMacro ev
         else [])
          ++ (if cfg.checkCapsOnly && !isCapsOnly ev.name then [warnNaming ev]
              else []) := by
  unfold macroDefined rejected
  by_cases h1 : (ev.context == .builtin || ev.info.isUsedForHeaderGuard
      || ev.info.tokens.isEmpty
      || ev.info.tokens.any
          (fun t => t.kind == TokenKind.hash || t.kind == TokenKind.hashhash))
      = true
  · simp [h1]
  · simp only [Bool.not_eq_true] at h1
    by_cases h2 : (cfg.ignoreCommandLineMacros && ev.context == .commandLine)
        = true
    · simp [h1, h2]
    · simp only [Bool.not_eq_true] at h2
      by_cases h3 : (ev.name == "__GCC_HAVE_DWARF2_CFI_ASM") = true
      · simp [h1, h2, h3]
      · simp only [Bool.not_eq_true] at h3
        simp [h1, h2, h3]

/-- `warnMacro` always returns the empty list or one of the three
usage-category singletons for this event. -/
theorem warnMacro_shape (ev : MacroDefinitionEvent) :
    warnMacro ev = []
      ∨ warnMacro ev = [⟨ev.context, .constantLike, ev.name⟩]
      ∨ warnMacro ev = [⟨ev.context, .variadic, ev.name⟩]
      ∨ warnMacro ev = [⟨ev.context, .functionLike, ev.name⟩] := by
  unfold warnMacro
  cases ev.info.tokens.all (fun t => t.kind.isLiteral) <;>
    cases ev.info.isVariadic <;>
      cases ev.info.isFunctionLike <;> simp

/-- Claim C1: for every macro definition that reaches the usage-category
check, at most one diagnostic is emitted, chosen by ordered precedence:
an all-literal body yields the constant-like diagnostic; otherwise a
variadic macro yields the variadic diagnostic; otherwise a function-like
macro yields the function-like diagnostic; otherwise (object-like,
non-literal body) nothing is emitted. -/
theorem warnMacro_precedence (ev : MacroDefinitionEvent) :
    (warnMacro ev).length ≤ 1 ∧
    (ev.info.tokens.all (fun t => t.kind.isLiteral) = true →
      warnMacro ev = [⟨ev.context, .constantLike, ev.name⟩]) ∧
    (ev.info.tokens.all (fun t => t.kind.isLiteral) = false →
      ev.info.isVariadic = true →
      warnMacro ev = [⟨ev.context, .variadic, ev.name⟩]) ∧
    (ev.info.tokens.all (fun t => t.kind.isLiteral) = false →
      ev.info.isVariadic = false → ev.info.isFunctionLike = true →
      warnMacro ev = [⟨ev.context, .functionLike, ev.name⟩]) ∧
    (ev.info.tokens.all (fun t => t.kind.isLiteral) = false →
      ev.info.isVariadic = false → ev.info.isFunctionLike = false →
      warnMacro ev = []) := by
  unfold warnMacro
  cases hlit : ev.info.tokens.all (fun t => t.kind.isLiteral) <;>
    cases hv : ev.info.isVariadic <;>
      cases hf : ev.info.isFunctionLike <;> simp

/-- Witness for C1: the four precedence outcomes at concrete macro
definitions (`#define MAX 100`, `#define LOG(fmt, ...) fmt`,
`#define SQUARE(x) x`, `#define FLAG someVar`). -/
theorem warnMacro_precedence_w :
    warnMacro ⟨"MAX", ⟨[⟨.numericConstant⟩], false, false, false⟩, .ordinary⟩
        = [⟨.ordinary, .constantLike, "MAX"⟩] ∧
    warnMacro ⟨"LOG", ⟨[⟨.identifier⟩], true, true, false⟩, .ordinary⟩
        = [⟨.ordinary, .variadic, "LOG"⟩] ∧
    warnMacro ⟨"SQUARE", ⟨[⟨.identifier⟩], false, true, false⟩, .ordinary⟩
        = [⟨.ordinary, .functionLike, "SQUARE"⟩] ∧
    warnMacro ⟨"FLAG", ⟨[⟨.identifier⟩], false, false, false⟩, .ordinary⟩
        = [] :=
  ⟨(warnMacro_precedence _).2.1 (by decide),
   (warnMacro_precedence _).2.2.1 (by decide) (by decide),
   (warnMacro_precedence _).2.2.2.1 (by decide) (by decide) (by decide),
   (warnMacro_precedence _).2.2.2.2 (by decide) (by decide) (by decide)⟩

/-- Claim C2: per macro definition, at most one usage-category diagnostic
and at most one naming diagnostic are emitted, and the two checks are
mutually exclusive: with `CheckCapsOnly` true no usage-category diagnostic
is ever produced, with it false no naming diagnostic is ever produced, and
no single definition ever gets both kinds. -/
theorem macroDefined_check_exclusion (cfg : AnalyzerConfig)
    (ev : MacroDefinitionEvent) :
    ((macroDefined cfg ev).filter Diagnostic.isUsage).length ≤ 1 ∧
    ((macroDefined cfg ev).filter Diagnostic.isNaming).length ≤ 1 ∧
    (cfg.checkCapsOnly = true →
      (macroDefined cfg ev).filter Diagnostic.isUsage = []) ∧
    (cfg.checkCapsOnly = false →
      (macroDefined cfg ev).filter Diagnostic.isNaming = []) ∧
    ¬((macroDefined cfg ev).any Diagnostic.isUsage = true ∧
      (macroDefined cfg ev).any Diagnostic.isNaming = true) := by
  rw [macroDefined_eq_rejected]
  by_cases hrej : rejected cfg ev = true
  · simp [hrej]
  · simp only [Bool.not_eq_true] at hrej
    cases hcaps : cfg.checkCapsOnly
    · cases hm : cfg.regexMatch ev.name
      · rcases warnMacro_shape ev with h | h | h | h <;>
          simp [hrej, hcaps, hm, h, Diagnostic.isUsage, Diagnostic.isNaming]
      · simp [hrej, hcaps, hm]
    · cases hco : isCapsOnly ev.name <;>
        simp [hrej, hcaps, hco, warnNaming, Diagnostic.isUsage,
          Diagnostic.isNaming]

/-- Witness for C2: with `CheckCapsOnly` true no usage diagnostic and with
it false no naming diagnostic for a concrete definition. -/
theorem macroDefined_check_exclusion_w :
    (macroDefined ⟨fun _ => false, true, false⟩
        ⟨"myMacro", ⟨[⟨.identifier⟩], false, false, false⟩, .ordinary⟩).filter
          Diagnostic.isUsage = [] ∧
    (macroDefined ⟨fun _ => false, false, false⟩
        ⟨"myMacro", ⟨[⟨.identifier⟩], false, false, false⟩, .ordinary⟩).filter
          Diagnostic.isNaming = [] :=
  ⟨(macroDefined_check_exclusion _ _).2.2.1 rfl,
   (macroDefined_check_exclusion _ _).2.2.2.1 rfl⟩

/-- Claim C3: a macro definition with an empty body, or a body containing a
stringize or token-paste operator, or classified as a header guard, or
written in the builtin file, produces no diagnostic of any kind under every
configuration. -/
theorem macroDefined_hard_filters (cfg : AnalyzerConfig)
    (ev : MacroDefinitionEvent)
    (h : ev.info.tokens.isEmpty = true
      ∨ ev.info.tokens.any
          (fun t => t.kind == TokenKind.hash || t.kind == TokenKind.hashhash)
          = true
      ∨ ev.info.isUsedForHeaderGuard = true
      ∨ ev.context = .builtin) :
    macroDefined cfg ev = [] := by
  unfold macroDefined
  rcases h with h | h | h | h <;> simp [h]

/-- Witness for C3: each of the four filters at a concrete definition
(empty body, `##` in the body, header guard, builtin file). -/
theorem macroDefined_hard_filters_w :
    macroDefined ⟨fun _ => false, false, false⟩
        ⟨"E", ⟨[], false, false, false⟩, .ordinary⟩ = [] ∧
    macroDefined ⟨fun _ => false, false, false⟩
        ⟨"P", ⟨[⟨.identifier⟩, ⟨.hashhash⟩, ⟨.identifier⟩], false, true, false⟩,
          .ordinary⟩ = [] ∧
    macroDefined ⟨fun _ => false, true, false⟩
        ⟨"G", ⟨[⟨.numericConstant⟩], false, false, true⟩, .ordinary⟩ = [] ∧
    macroDefined ⟨fun _ => false, false, false⟩
        ⟨"B", ⟨[⟨.numericConstant⟩], false, false, false⟩, .builtin⟩ = [] :=
  ⟨macroDefined_hard_filters _ _ (Or.inl (by decide)),
   macroDefined_hard_filters _ _ (Or.inr (Or.inl (by decide))),
   macroDefined_hard_filters _ _ (Or.inr (Or.inr (Or.inl (by decide)))),
   macroDefined_hard_filters _ _ (Or.inr (Or.inr (Or.inr (by decide))))⟩

/-- Counterexample to C4 as stated: a variadic macro whose body is a single
numeric literal receives a usage-category diagnostic, and that diagnostic
is the constant-like one, not the variadic one, because the all-literal
rule has higher precedence. -/
theorem variadic_literal_counterexample :
    (⟨"LOG", ⟨[⟨.numericConstant⟩], true, true, false⟩, .ordinary⟩
        : MacroDefinitionEvent).info.isVariadic = true ∧
    macroDefined ⟨fun _ => false, false, false⟩
        ⟨"LOG", ⟨[⟨.numericConstant⟩], true, true, false⟩, .ordinary⟩
      = [⟨.ordinary, .constantLike, "LOG"⟩] := by
  constructor
  · rfl
  · decide

/-- Claim C4 (amended): for every variadic macro, a usage-category
diagnostic it receives is the constant-like one when its body is entirely
literal tokens and otherwise exactly the variadic one; the function-like
diagnostic is never emitted for a variadic macro. -/
theorem variadic_never_function_like (cfg : AnalyzerConfig)
    (ev : MacroDefinitionEvent) (hv : ev.info.isVariadic = true) :
    (ev.info.tokens.all (fun t => t.kind.isLiteral) = true →
      ∀ d ∈ macroDefined cfg ev, d.isUsage = true →
        d = ⟨ev.context, .constantLike, ev.name⟩) ∧
    (ev.info.tokens.all (fun t => t.kind.isLiteral) = false →
      ∀ d ∈ macroDefined cfg ev, d.isUsage = true →
        d = ⟨ev.context, .variadic, ev.name⟩) ∧
    (∀ d ∈ macroDefined cfg ev, d.kind ≠ DiagKind.functionLike) := by
  rw [macroDefined_eq_rejected]
  by_cases hrej : rejected cfg ev = true
  · simp [hrej]
  · simp only [Bool.not_eq_true] at hrej
    cases hcaps : cfg.checkCapsOnly
    · cases hm : cfg.regexMatch ev.name
      · cases hlit : ev.info.tokens.all (fun t => t.kind.isLiteral) <;>
          simp [hrej, hcaps, hm, warnMacro, hlit, hv, Diagnostic.isUsage]
      · simp [hrej, hcaps, hm]
    · cases hco : isCapsOnly ev.name <;>
        simp [hrej, hcaps, hco, warnNaming, Diagnostic.isUsage]

/-- Witness for C4 (amended): for a concrete variadic macro with a
non-literal body the emitted usage diagnostic equals the variadic one and
its category is not function-like. -/
theorem variadic_never_function_like_w :
    (⟨FileContext.ordinary, DiagKind.variadic, "LOG"⟩ : Diagnostic)
        = ⟨FileContext.ordinary, DiagKind.variadic, "LOG"⟩ ∧
    (⟨FileContext.ordinary, DiagKind.variadic, "LOG"⟩ : Diagnostic).kind
        ≠ DiagKind.functionLike :=
  ⟨(variadic_never_function_like ⟨fun _ => false, false, false⟩
      ⟨"LOG", ⟨[⟨TokenKind.identifier⟩], true, true, false⟩,
        FileContext.ordinary⟩ rfl).2.1 (by decide)
      ⟨FileContext.ordinary, DiagKind.variadic, "LOG"⟩ (by decide) (by decide),
   (variadic_never_function_like ⟨fun _ => false, false, false⟩
      ⟨"LOG", ⟨[⟨TokenKind.identifier⟩], true, true, false⟩,
        FileContext.ordinary⟩ rfl).2.2
      ⟨FileContext.ordinary, DiagKind.variadic, "LOG"⟩ (by decide)⟩

/-- Claim C5: a macro definition whose body consists entirely of literal
tokens and which reaches the usage-category check (not rejected by the
observer, `CheckCapsOnly` false, name not matching the allowed pattern)
receives exactly the constant-like diagnostic. -/
theorem all_literal_constant_diag (cfg : AnalyzerConfig)
    (ev : MacroDefinitionEvent) (hrej : rejected cfg ev = false)
    (hcaps : cfg.checkCapsOnly = false)
    (hm : cfg.regexMatch ev.name = false)
    (hlit : ev.info.tokens.all (fun t => t.kind.isLiteral) = true) :
    macroDefined cfg ev = [⟨ev.context, .constantLike, ev.name⟩] := by
  rw [macroDefined_eq_rejected]
  simp [hrej, hcaps, hm, warnMacro, hlit]

/-- Witness for C5: `#define MAX 100` receives exactly the constant-like
diagnostic. -/
theorem all_literal_constant_diag_w :
    macroDefined ⟨fun _ => false, false, false⟩
        ⟨"MAX", ⟨[⟨.numericConstant⟩], false, false, false⟩, .ordinary⟩
      = [⟨.ordinary, .constantLike, "MAX"⟩] :=
  all_literal_constant_diag _ _ (by decide) rfl rfl (by decide)

/-- Claim C6: with `CheckCapsOnly` false, a macro whose name matches the
allowed pattern receives no usage-category diagnostic. -/
theorem allowed_pattern_no_usage_diag (cfg : AnalyzerConfig)
    (ev : MacroDefinitionEvent) (hcaps : cfg.checkCapsOnly = false)
    (hm : cfg.regexMatch ev.name = true) :
    (macroDefined cfg ev).filter Diagnostic.isUsage = [] := by
  rw [macroDefined_eq_rejected]
  by_cases hrej : rejected cfg ev = true
  · simp [hrej]
  · simp [hrej, hcaps, hm]

/-- Witness for C6: a matching name yields no usage-category diagnostic. -/
theorem allowed_pattern_no_usage_diag_w :
    (macroDefined ⟨fun _ => true, false, false⟩
        ⟨"DEBUG_LEVEL", ⟨[⟨.numericConstant⟩], false, false, false⟩,
          .ordinary⟩).filter Diagnostic.isUsage = [] :=
  allowed_pattern_no_usage_diag _ _ rfl rfl

/-- Claim C7: with `CheckCapsOnly` true, a definition surviving the
observer's rejection rules emits no diagnostic exactly when every character
of its name is an uppercase letter, a digit, or an underscore; otherwise
exactly one naming diagnostic is emitted. -/
theorem caps_only_naming (cfg : AnalyzerConfig) (ev : MacroDefinitionEvent)
    (hrej : rejected cfg ev = false) (hcaps : cfg.checkCapsOnly = true) :
    (macroDefined cfg ev = [] ↔
      ∀ c ∈ ev.name.data, c.isUpper = true ∨ c.isDigit = true ∨ c = '_') ∧
    (isCapsOnly ev.name = false →
      macroDefined cfg ev = [⟨ev.context, .naming, ev.name⟩]) := by
  have hiff : isCapsOnly ev.name = true ↔
      ∀ c ∈ ev.name.data, c.isUpper = true ∨ c.isDigit = true ∨ c = '_' := by
    simp [isCapsOnly, List.all_eq_true, or_assoc]
  rw [macroDefined_eq_rejected, ← hiff]
  cases hco : isCapsOnly ev.name <;> simp [hrej, hcaps, hco, warnNaming]

/-- Witness for C7: `#define myMacro 1` gets the naming diagnostic and
`#define MY_MACRO 1` gets none, with `CheckCapsOnly` true. -/
theorem caps_only_naming_w :
    macroDefined ⟨fun _ => false, true, false⟩
        ⟨"myMacro", ⟨[⟨.numericConstant⟩], false, false, false⟩, .ordinary⟩
      = [⟨.ordinary, .naming, "myMacro"⟩] ∧
    macroDefined ⟨fun _ => false, true, false⟩
        ⟨"MY_MACRO", ⟨[⟨.numericConstant⟩], false, false, false⟩, .ordinary⟩
      = [] :=
  ⟨(caps_only_naming ⟨fun _ => false, true, false⟩
      ⟨"myMacro", ⟨[⟨.numericConstant⟩], false, false, false⟩, .ordinary⟩
      (by decide) rfl).2 (by decide),
   (caps_only_naming ⟨fun _ => false, true, false⟩
      ⟨"MY_MACRO", ⟨[⟨.numericConstant⟩], false, false, false⟩, .ordinary⟩
      (by decide) rfl).1.mpr (by decide)⟩

/-- Claim C8: a macro named exactly `__GCC_HAVE_DWARF2_CFI_ASM` is rejected
before either check runs, so no diagnostic is emitted for it under any
configuration. -/
theorem exempt_name_no_diag (cfg : AnalyzerConfig)
    (ev : MacroDefinitionEvent)
    (h : ev.name = "__GCC_HAVE_DWARF2_CFI_ASM") :
    macroDefined cfg ev = [] := by
  rw [macroDefined_eq_rejected]
  simp [rejected, h]

/-- Witness for C8: the exempt feature-test macro with a non-trivial body
and a lowercase-violating name still emits nothing. -/
theorem exempt_name_no_diag_w :
    macroDefined ⟨fun _ => false, false, false⟩
        ⟨"__GCC_HAVE_DWARF2_CFI_ASM", ⟨[⟨.numericConstant⟩], false, false,
          false⟩, .ordinary⟩ = [] :=
  exempt_name_no_diag _ _ rfl

/-- Claim C10: the allowed pattern has no effect on the naming check: with
`CheckCapsOnly` true, a surviving macro whose name matches the pattern but
is not all-uppercase still receives the naming diagnostic. -/
theorem pattern_no_effect_on_naming (cfg : AnalyzerConfig)
    (ev : MacroDefinitionEvent) (hrej : rejected cfg ev = false)
    (hcaps : cfg.checkCapsOnly = true)
    (hm : cfg.regexMatch ev.name = true)
    (hco : isCapsOnly ev.name = false) :
    macroDefined cfg ev = [⟨ev.context, .naming, ev.name⟩] := by
  rw [macroDefined_eq_rejected]
  simp [hrej, hcaps, hco, warnNaming]

/-- Witness for C10: a pattern matching every name does not suppress the
naming diagnostic for `myMacro`. -/
theorem pattern_no_effect_on_naming_w :
    macroDefined ⟨fun _ => true, true, false⟩
        ⟨"myMacro", ⟨[⟨.numericConstant⟩], false, false, false⟩, .ordinary⟩
      = [⟨.ordinary, .naming, "myMacro"⟩] :=
  pattern_no_effect_on_naming _ _ (by decide) rfl rfl (by decide)

/-- Processing with a non-empty sink only appends: the already-accumulated
diagnostics never influence later decisions. -/
theorem processEvents_append (cfg : AnalyzerConfig)
    (evs : List MacroDefinitionEvent) (acc : List Diagnostic) :
    processEvents cfg evs acc = acc ++ processEvents cfg evs [] := by
  induction evs generalizing acc with
  | nil => simp [processEvents]
  | cons ev rest ih =>
    rw [processEvents, processEvents,
      ih (acc ++ macroDefined cfg ev), ih ([] ++ macroDefined cfg ev)]
    simp

/-- Claim C9: a run is the order-preserving concatenation of a pure
per-event decision depending only on the event and the configuration, so
two runs over the same event sequence with the same configuration produce
the identical diagnostic sequence; replaying the events on top of a
previous run's sink appends an exact copy of that run's output. -/
theorem runAnalyzer_deterministic (cfg : AnalyzerConfig)
    (evs : List MacroDefinitionEvent) :
    runAnalyzer cfg evs = evs.flatMap (fun ev => macroDefined cfg ev) ∧
    processEvents cfg evs (runAnalyzer cfg evs)
      = runAnalyzer cfg evs ++ runAnalyzer cfg evs := by
  constructor
  · induction evs with
    | nil => rfl
    | cons ev rest ih =>
      rw [runAnalyzer, processEvents, processEvents_append]
      rw [runAnalyzer] at ih
      simp [ih]
  · rw [runAnalyzer, processEvents_append]

end MacroUsage
